import Mathlib

/-!
Shallow embedding of `src/main.rs` of the activity-tracker application.

The embedding models the pure content of the program: the tracker state,
one frame of the UI `update` method (permission block, button handlers,
countdown block), the CSV writer `save_activity_data`, and the background
sampler loop.  Environment interactions (clock readings, mouse position,
pressed keys, filesystem outcomes) are passed in as explicit parameters.
-/

/-- Mirrors `struct ActivityRecord` (`main.rs` lines 24-29).  `keys_pressed`
holds the textual names of `device_query::Keycode` values, i.e. the strings
the Rust code prints with `format!("{:?}", k)`. -/
structure ActivityRecord where
  timestamp : Nat
  mouse_x : Int
  mouse_y : Int
  keys_pressed : List String
deriving DecidableEq

/-- Big-endian base-10 digit list of `n`, with explicit fuel so that the
definition is structurally recursive and kernel-evaluable. -/
def natToDigitsAux : Nat → Nat → List Nat
  | 0, _ => []
  | fuel + 1, n => if n = 0 then [] else natToDigitsAux fuel (n / 10) ++ [n % 10]

/-- Big-endian decimal digits of `n` (with `[0]` for `0`). -/
def natDigits (n : Nat) : List Nat :=
  if n = 0 then [0] else natToDigitsAux n n

/-- Decimal rendering of a natural number as characters. -/
def natStrChars (n : Nat) : List Char :=
  (natDigits n).map Nat.digitChar

/-- Decimal rendering of a natural number, mirroring Rust `format!("{}", n)`
for `u64` values. -/
def natStr (n : Nat) : String := String.mk (natStrChars n)

/-- Decimal rendering of a signed integer as characters, mirroring Rust
`format!("{}", i)` for `i32` values: a leading minus sign for negative
values, then the decimal digits of the absolute value. -/
def intStrChars (i : Int) : List Char :=
  if i < 0 then '-' :: natStrChars i.natAbs else natStrChars i.natAbs

/-- String version of `intStrChars`. -/
def intStr (i : Int) : String := String.mk (intStrChars i)

/-- Mirrors the keys field construction `record.keys_pressed.iter().map(|k|
format!("{:?}", k)).collect::<Vec<String>>().flatten("+")` (`main.rs`
lines 186-190). -/
def joinKeysChars : List String → List Char
  | [] => []
  | [k] => k.data
  | k :: ks => k.data ++ '+' :: joinKeysChars ks

/-- String version of `joinKeysChars`. -/
def joinKeys (ks : List String) : String := String.mk (joinKeysChars ks)

/-- Mirrors one CSV data row (without the trailing newline), as produced by
`writeln!(file, "{},{},{},\"{}\"", record.timestamp, record.mouse_x,
record.mouse_y, keys_str)` (`main.rs` lines 192-199). -/
def csvLineChars (r : ActivityRecord) : List Char :=
  natStrChars r.timestamp ++ ',' :: intStrChars r.mouse_x
    ++ ',' :: intStrChars r.mouse_y
    ++ ',' :: '"' :: joinKeysChars r.keys_pressed ++ ['"']

/-- String version of `csvLineChars`. -/
def csvLine (r : ActivityRecord) : String := String.mk (csvLineChars r)

/-- Mirrors the CSV header row (`main.rs` line 182). -/
def csvHeader : String := "timestamp,mouse_x,mouse_y,keys_pressed"

/-- Mirrors the full contents of the output file: the header `writeln!`
followed by the `for record in data.iter()` loop of `writeln!` calls; each
`writeln!` appends its line and a newline (`main.rs` lines 182-200). -/
def writeCsvChars (data : List ActivityRecord) : List Char :=
  data.foldl (fun acc r => acc ++ csvLineChars r ++ ['\n']) (csvHeader.data ++ ['\n'])

/-- String version of `writeCsvChars`. -/
def writeCsv (data : List ActivityRecord) : String := String.mk (writeCsvChars data)

/-- Mirrors `self.task_name.replace(' ', "_")` (`main.rs` line 173); both
the pattern and the replacement are single characters, so the replacement
is a per-character map. -/
def sanitize (name : String) : String :=
  String.mk (name.data.map (fun c => if c = ' ' then '_' else c))

/-- Mirrors `format!("{}_{}.csv", sanitized_task_name, timestamp)`
(`main.rs` lines 173-174). -/
def saveFilename (task : String) (now : Nat) : String :=
  sanitize task ++ "_" ++ natStr now ++ ".csv"

/-- Mirrors `struct ActivityTracker` (`main.rs` lines 12-22).  The shared
`Arc<Mutex<Vec<ActivityRecord>>>` log is modelled as the list it protects. -/
structure ActivityTracker where
  task_name : String
  status : String
  recording : Bool
  start_time : Option Nat
  activity_data : List ActivityRecord
  timer_complete : Bool
  permission_checked : Bool
  is_macos : Bool
deriving DecidableEq

/-- Mirrors `ActivityTracker::save_activity_data` (`main.rs` lines 160-214).
Here `now` models the `SystemTime::now()` epoch seconds read at save time,
`downloadDir` the result of `dirs::download_dir()`, and `createOk` whether
`File::create` succeeds.  Returns the updated tracker together with the
written file (path and contents), if any.  The locked `data` is only read
(`data.iter()`), never cleared. -/
def ActivityTracker.save_activity_data (s : ActivityTracker) (now : Nat)
    (downloadDir : Option String) (createOk : Bool) :
    ActivityTracker × Option (String × String) :=
  if s.activity_data.isEmpty then
    ({ s with status := "No activity data recorded." }, none)
  else
    let filename := saveFilename s.task_name now
    match downloadDir with
    | some dir =>
      if createOk then
        let path := dir ++ "/" ++ filename
        let contents := writeCsv s.activity_data
        let msg := "Activity data saved to " ++ path
        let msg := if s.is_macos then
            msg ++ "\nNote: On macOS, you may need to look in ~/Downloads"
          else msg
        ({ s with status := msg }, some (path, contents))
      else
        ({ s with status := "Failed to create output file." }, none)
    | none =>
      ({ s with status := "Could not find Downloads directory." }, none)

/-- Mirrors the body of the `Create Task` click handler (`main.rs`
lines 55-97): inert when the task name is empty (the click condition is
`clicked() && !self.task_name.is_empty()`); otherwise resets the state and
spawns the sampler thread, reported as the returned boolean. -/
def ActivityTracker.handleCreateTask (s : ActivityTracker) (now : Nat) :
    ActivityTracker × Bool :=
  if s.task_name.isEmpty then (s, false)
  else
    ({ s with
        status := "Preparing to record (5 second countdown)...",
        start_time := some now,
        recording := true,
        timer_complete := false,
        activity_data := [] }, true)

/-- Mirrors the body of the `End Task` click handler (`main.rs`
lines 100-110): if five seconds have elapsed since `start_time`, save and
then set `recording` to false and overwrite the status; otherwise only set
the status to the premature-stop message. -/
def ActivityTracker.handleEndTask (s : ActivityTracker) (now : Nat)
    (downloadDir : Option String) (createOk : Bool) :
    ActivityTracker × Option (String × String) :=
  match s.start_time with
  | none => (s, none)
  | some t0 =>
    if 5 ≤ now - t0 then
      let (s1, file) := s.save_activity_data now downloadDir createOk
      ({ s1 with
          recording := false,
          status := "Recording completed and saved to Downloads folder." }, file)
    else
      ({ s with status := "Please wait for timer to complete." }, none)

/-- Mirrors the macOS permission block at the top of each frame (`main.rs`
lines 37-44). -/
def ActivityTracker.permissionStep (s : ActivityTracker) : ActivityTracker :=
  if !s.permission_checked && s.is_macos then
    { s with
        permission_checked := true,
        status := "Note: On macOS, you may need to grant permission for input monitoring in System Preferences → Security & Privacy → Privacy → Input Monitoring" }
  else s

/-- Mirrors the countdown display block (`main.rs` lines 117-129). -/
def ActivityTracker.timerStep (s : ActivityTracker) (now : Nat) : ActivityTracker :=
  if s.recording && !s.timer_complete then
    match s.start_time with
    | some t0 =>
      if now - t0 < 5 then
        { s with status :=
            "Recording will start in " ++ natStr (5 - (now - t0)) ++ " seconds..." }
      else
        { s with timer_complete := true, status := "Recording in progress..." }
    | none => s
  else s

/-- Models the user interaction during one `update` frame: no click, a
click on `Create Task` (the button shown while not recording), or a click
on `End Task` (the button shown while recording). -/
inductive UiEvent where
  | noClick
  | clickCreate
  | clickEnd
deriving DecidableEq

/-- Models the result of one frame: the new state, whether a sampler thread
was spawned, and the file written, if any. -/
structure UpdateResult where
  state : ActivityTracker
  spawned : Bool
  file : Option (String × String)
deriving DecidableEq

/-- Mirrors one full frame of `ActivityTracker::update` (`main.rs`
lines 32-139): the permission block, then the button row (`Create Task`
handled only while not recording, `End Task` only while recording), then
the countdown block, in source order. -/
def ActivityTracker.update (s : ActivityTracker) (ev : UiEvent) (now : Nat)
    (downloadDir : Option String) (createOk : Bool) : UpdateResult :=
  let s0 := s.permissionStep
  match ev with
  | .noClick => ⟨s0.timerStep now, false, none⟩
  | .clickCreate =>
    if s0.recording then ⟨s0.timerStep now, false, none⟩
    else
      let (s1, spawned) := s0.handleCreateTask now
      ⟨s1.timerStep now, spawned, none⟩
  | .clickEnd =>
    if s0.recording then
      let (s1, file) := s0.handleEndTask now downloadDir createOk
      ⟨s1.timerStep now, false, file⟩
    else ⟨s0.timerStep now, false, none⟩

/-- Models the environment of the sampler thread: the `SystemTime` clock,
the mouse coordinates, and the pressed-key names, as read on the `i`-th
loop iteration (`main.rs` lines 72-96). -/
structure SamplerEnv where
  clock : Nat → Nat
  mouse : Nat → Int × Int
  keys : Nat → List String

/-- Mirrors the record the sampler builds on iteration `i` (`main.rs`
lines 73-87). -/
def sampleRecord (env : SamplerEnv) (i : Nat) : ActivityRecord :=
  { timestamp := env.clock i
    mouse_x := (env.mouse i).1
    mouse_y := (env.mouse i).2
    keys_pressed := env.keys i }

/-- Mirrors the shared log after `n` iterations of the sampler loop: each
iteration appends its record (`data.push(record)`, `main.rs` lines 90-92). -/
def samplerRun (env : SamplerEnv) : Nat → List ActivityRecord
  | 0 => []
  | n + 1 => samplerRun env n ++ [sampleRecord env n]

/-- Numeric value of a decimal digit character. -/
def charVal (c : Char) : Nat := c.toNat - 48

/-- Splits a character list at every occurrence of `sep`; the separator
characters are dropped, and `n` separators yield `n + 1` fields. -/
def splitCh (sep : Char) : List Char → List (List Char)
  | [] => [[]]
  | c :: cs =>
    if c = sep then [] :: splitCh sep cs
    else
      match splitCh sep cs with
      | [] => [[c]]
      | f :: fs => (c :: f) :: fs

/-- Modelled from the spec: reads a decimal natural-number field, as needed
by the round-trip property; the repository itself contains no CSV reader. -/
def readNat (cs : List Char) : Option Nat :=
  if cs.isEmpty then none
  else if cs.all Char.isDigit then
    some (cs.foldl (fun a c => 10 * a + charVal c) 0)
  else none

/-- Modelled from the spec: reads an optionally negated decimal integer
field. -/
def readInt : List Char → Option Int
  | [] => none
  | c :: cs =>
    if c = '-' then (readNat cs).map (fun n => -(Int.ofNat n))
    else (readNat (c :: cs)).map Int.ofNat

/-- Modelled from the spec: reads the double-quoted, plus-joined keys
field. -/
def readKeys (cs : List Char) : Option (List String) :=
  match cs with
  | [] => none
  | c :: rest =>
    if c = '"' then
      if rest.getLast? = some '"' then
        let inner := rest.dropLast
        if inner.isEmpty then some []
        else some ((splitCh '+' inner).map String.mk)
      else none
    else none

/-- Modelled from the spec: reads one CSV data row of the produced format
(timestamp, mouse x, mouse y, quoted keys). -/
def parseRow (cs : List Char) : Option ActivityRecord :=
  match splitCh ',' cs with
  | [f1, f2, f3, f4] =>
    match readNat f1, readInt f2, readInt f3, readKeys f4 with
    | some t, some x, some y, some ks =>
      some { timestamp := t, mouse_x := x, mouse_y := y, keys_pressed := ks }
    | _, _, _, _ => none
  | _ => none

/-- Modelled from the spec: reads a list of CSV data rows, failing if any
row fails. -/
def parseRows : List (List Char) → Option (List ActivityRecord)
  | [] => some []
  | l :: ls =>
    match parseRow l, parseRows ls with
    | some r, some rs => some (r :: rs)
    | _, _ => none

/-- Modelled from the spec: the repository contains no CSV reader, but the
spec round-trip property ("parsing a produced file yields records whose
fields equal the originals") presupposes one.  This parser reads exactly
the format the writer emits: a header line, newline-terminated rows,
comma-separated fields, and a final double-quoted plus-joined keys field. -/
def parseCsv (s : String) : Option (List ActivityRecord) :=
  match splitCh '\n' s.data with
  | [] => none
  | header :: rest =>
    if header = csvHeader.data then
      if rest.getLast? = some [] then parseRows rest.dropLast
      else none
    else none

/-- Characterises a key name as printed by `format!("{:?}", k)` for a
`device_query::Keycode` value: nonempty and free of the CSV delimiter
characters.  Every `Keycode` debug name is a nonempty alphanumeric ASCII
identifier, so every name the program can produce satisfies this. -/
def keyNameOk (k : String) : Prop :=
  k.data ≠ [] ∧ ∀ c ∈ k.data, c ≠ '+' ∧ c ≠ '"' ∧ c ≠ ',' ∧ c ≠ '\n'

instance : DecidablePred keyNameOk := fun k => by
  unfold keyNameOk; infer_instance

/-- Characterises a record whose key names are all well-formed key names. -/
def recordOk (r : ActivityRecord) : Prop :=
  ∀ k ∈ r.keys_pressed, keyNameOk k

instance : DecidablePred recordOk := fun r => by
  unfold recordOk; infer_instance

/-- Lines of a produced file: the file text split at every newline
character (a file ending in a newline yields a final empty line). -/
def fileLines (s : String) : List String :=
  (splitCh '\n' s.data).map String.mk

/-! ### Decimal printing and parsing lemmas -/

theorem natToDigitsAux_eq (f : Nat) : ∀ n : Nat, n ≤ f →
    natToDigitsAux f n = (Nat.digits 10 n).reverse := by
  induction f with
  | zero =>
    intro n hn
    interval_cases n
    simp [natToDigitsAux]
  | succ f ih =>
    intro n hn
    by_cases h0 : n = 0
    · subst h0; simp [natToDigitsAux]
    · have hpos : 0 < n := Nat.pos_of_ne_zero h0
      have hdiv : n / 10 ≤ f := by
        have : n / 10 < n := Nat.div_lt_self hpos (by norm_num)
        omega
      rw [natToDigitsAux, if_neg h0, ih _ hdiv,
        Nat.digits_def' (by norm_num : (1:Nat) < 10) hpos]
      simp

theorem natDigits_eq_digits (n : Nat) (h : n ≠ 0) :
    natDigits n = (Nat.digits 10 n).reverse := by
  rw [natDigits, if_neg h, natToDigitsAux_eq n n le_rfl]

theorem natDigits_lt (n : Nat) : ∀ d ∈ natDigits n, d < 10 := by
  intro d hd
  by_cases h : n = 0
  · subst h; simp [natDigits] at hd; omega
  · rw [natDigits_eq_digits n h, List.mem_reverse] at hd
    exact Nat.digits_lt_base (by norm_num) hd

theorem natDigits_ne_nil (n : Nat) : natDigits n ≠ [] := by
  by_cases h : n = 0
  · subst h; simp [natDigits]
  · rw [natDigits_eq_digits n h]
    simp [Nat.digits_ne_nil_iff_ne_zero, h]

theorem digitChar_val (d : Nat) (h : d < 10) : charVal (Nat.digitChar d) = d := by
  interval_cases d <;> decide

theorem digitChar_isDigit (d : Nat) (h : d < 10) :
    (Nat.digitChar d).isDigit = true := by
  interval_cases d <;> decide

theorem digitChar_ne (d : Nat) (h : d < 10) :
    Nat.digitChar d ≠ ',' ∧ Nat.digitChar d ≠ '\n' ∧ Nat.digitChar d ≠ '"' ∧
      Nat.digitChar d ≠ '+' ∧ Nat.digitChar d ≠ '-' := by
  interval_cases d <;> decide

theorem foldl_digitChar (l : List Nat) (hl : ∀ d ∈ l, d < 10) : ∀ a : Nat,
    (l.map Nat.digitChar).foldl (fun a c => 10 * a + charVal c) a
      = l.foldl (fun a d => 10 * a + d) a := by
  induction l with
  | nil => intro a; rfl
  | cons d l ih =>
    intro a
    have hd : d < 10 := hl d (List.mem_cons_self d l)
    have hl' : ∀ d ∈ l, d < 10 := fun x hx => hl x (List.mem_cons_of_mem d hx)
    simp only [List.map_cons, List.foldl_cons, digitChar_val d hd, ih hl']

theorem foldl_reverse_ofDigits (l : List Nat) :
    l.reverse.foldl (fun a d => 10 * a + d) 0 = Nat.ofDigits 10 l := by
  induction l with
  | nil => rfl
  | cons d l ih =>
    rw [List.reverse_cons, List.foldl_append, ih, Nat.ofDigits_cons]
    simp only [List.foldl_cons, List.foldl_nil]
    omega

theorem readNat_natStrChars (n : Nat) : readNat (natStrChars n) = some n := by
  have hne : (natStrChars n).isEmpty = false := by
    unfold natStrChars
    cases h : natDigits n with
    | nil => exact absurd h (natDigits_ne_nil n)
    | cons d l => simp [h]
  have hdig : (natStrChars n).all Char.isDigit = true := by
    rw [List.all_eq_true]
    intro c hc
    obtain ⟨d, hd, rfl⟩ := List.mem_map.1 hc
    exact digitChar_isDigit d (natDigits_lt n d hd)
  rw [readNat, hne]
  simp only [Bool.false_eq_true, if_false, hdig, if_true]
  congr 1
  rw [natStrChars, foldl_digitChar (natDigits n) (natDigits_lt n)]
  by_cases h : n = 0
  · subst h; rfl
  · rw [natDigits_eq_digits n h, foldl_reverse_ofDigits, Nat.ofDigits_digits]

theorem mem_natStrChars_isDigit (n : Nat) :
    ∀ c ∈ natStrChars n, c.isDigit = true := by
  intro c hc
  obtain ⟨d, hd, rfl⟩ := List.mem_map.1 hc
  exact digitChar_isDigit d (natDigits_lt n d hd)

theorem isDigit_ne (c : Char) (h : c.isDigit = true) :
    c ≠ ',' ∧ c ≠ '\n' ∧ c ≠ '"' ∧ c ≠ '+' ∧ c ≠ '-' := by
  refine ⟨?_, ?_, ?_, ?_, ?_⟩ <;> rintro rfl <;> exact absurd h (by decide)

theorem mem_intStrChars (i : Int) :
    ∀ c ∈ intStrChars i, c.isDigit = true ∨ c = '-' := by
  intro c hc
  unfold intStrChars at hc
  split at hc
  · rcases List.mem_cons.1 hc with h | h
    · exact Or.inr h
    · exact Or.inl (mem_natStrChars_isDigit _ c h)
  · exact Or.inl (mem_natStrChars_isDigit _ c hc)

theorem mem_intStrChars_ne (i : Int) :
    ∀ c ∈ intStrChars i, c ≠ ',' ∧ c ≠ '\n' ∧ c ≠ '"' ∧ c ≠ '+' := by
  intro c hc
  rcases mem_intStrChars i c hc with h | rfl
  · obtain ⟨h1, h2, h3, h4, _⟩ := isDigit_ne c h
    exact ⟨h1, h2, h3, h4⟩
  · refine ⟨by decide, by decide, by decide, by decide⟩

theorem readInt_intStrChars (i : Int) : readInt (intStrChars i) = some i := by
  by_cases hneg : i < 0
  · rw [intStrChars, if_pos hneg, readInt, if_pos rfl, readNat_natStrChars]
    simp only [Option.map_some']
    congr 1
    simp only [Int.ofNat_eq_natCast]
    omega
  · rw [intStrChars, if_neg hneg]
    cases h : natStrChars i.natAbs with
    | nil =>
      exact absurd (congrArg List.length h)
        (by simp [natStrChars, List.length_eq_zero, natDigits_ne_nil])
    | cons c cs =>
      have hc : c ∈ natStrChars i.natAbs := by rw [h]; exact List.mem_cons_self c cs
      have hnd : c ≠ '-' := (isDigit_ne c (mem_natStrChars_isDigit _ c hc)).2.2.2.2
      rw [readInt, if_neg hnd, ← h, readNat_natStrChars]
      simp only [Option.map_some']
      congr 1
      simp only [Int.ofNat_eq_natCast]
      omega

/-! ### Splitting and joining lemmas -/

theorem splitCh_ne_nil (sep : Char) (cs : List Char) : splitCh sep cs ≠ [] := by
  induction cs with
  | nil => simp [splitCh]
  | cons c cs ih =>
    rw [splitCh]
    split
    · simp
    · cases h : splitCh sep cs with
      | nil => simp
      | cons f fs => simp

theorem splitCh_append_cons (sep : Char) (a b : List Char) (h : sep ∉ a) :
    splitCh sep (a ++ sep :: b) = a :: splitCh sep b := by
  induction a with
  | nil => simp [splitCh]
  | cons c a ih =>
    have hc : c ≠ sep := fun hcs => h (hcs ▸ List.mem_cons_self c a)
    have ha : sep ∉ a := fun hs => h (List.mem_cons_of_mem c hs)
    rw [List.cons_append, splitCh, if_neg hc, ih ha]

theorem splitCh_of_not_mem (sep : Char) (a : List Char) (h : sep ∉ a) :
    splitCh sep a = [a] := by
  induction a with
  | nil => rfl
  | cons c a ih =>
    have hc : c ≠ sep := fun hcs => h (hcs ▸ List.mem_cons_self c a)
    have ha : sep ∉ a := fun hs => h (List.mem_cons_of_mem c hs)
    rw [splitCh, if_neg hc, ih ha]

theorem splitCh_join (sep : Char) (ls : List (List Char))
    (h : ∀ l ∈ ls, sep ∉ l) :
    splitCh sep ((ls.map (fun l => l ++ [sep])).flatten) = ls ++ [[]] := by
  induction ls with
  | nil => rfl
  | cons l ls ih =>
    have hl : sep ∉ l := h l (List.mem_cons_self l ls)
    have hls : ∀ x ∈ ls, sep ∉ x := fun x hx => h x (List.mem_cons_of_mem l hx)
    rw [List.map_cons, List.flatten_cons, List.append_assoc,
      List.singleton_append, splitCh_append_cons sep l _ hl, ih hls,
      List.cons_append]

theorem foldl_two_append {α : Type} (f g : α → List Char) (l : List α) :
    ∀ init : List Char,
      l.foldl (fun acc r => acc ++ f r ++ g r) init
        = init ++ (l.map (fun r => f r ++ g r)).flatten := by
  induction l with
  | nil => intro init; simp
  | cons r l ih =>
    intro init
    rw [List.foldl_cons, ih, List.map_cons, List.flatten_cons]
    simp [List.append_assoc]

theorem writeCsvChars_eq (data : List ActivityRecord) :
    writeCsvChars data
      = ((csvHeader.data :: data.map csvLineChars).map (fun l => l ++ ['\n'])).flatten := by
  rw [writeCsvChars, foldl_two_append csvLineChars (fun _ => ['\n']) data,
    List.map_cons, List.flatten_cons, List.map_map]
  rfl

theorem mk_data (s : String) : String.mk s.data = s := by
  cases s
  rfl

theorem mem_joinKeysChars (ks : List String) (h : ∀ k ∈ ks, keyNameOk k) :
    ∀ c ∈ joinKeysChars ks, c ≠ '"' ∧ c ≠ ',' ∧ c ≠ '\n' := by
  induction ks with
  | nil => intro c hc; exact absurd hc (List.not_mem_nil c)
  | cons k ks ih =>
    intro c hc
    have hk : keyNameOk k := h k (List.mem_cons_self k ks)
    cases ks with
    | nil =>
      have hj : joinKeysChars [k] = k.data := rfl
      rw [hj] at hc
      obtain ⟨hq, hcm, hnl⟩ := (hk.2 c hc).2
      exact ⟨hq, hcm, hnl⟩
    | cons k' ks' =>
      have hj : joinKeysChars (k :: k' :: ks')
          = k.data ++ '+' :: joinKeysChars (k' :: ks') := rfl
      rw [hj] at hc
      rcases List.mem_append.1 hc with hm | hm
      · obtain ⟨hq, hcm, hnl⟩ := (hk.2 c hm).2
        exact ⟨hq, hcm, hnl⟩
      · rcases List.mem_cons.1 hm with rfl | hm'
        · exact ⟨by decide, by decide, by decide⟩
        · exact ih (fun x hx => h x (List.mem_cons_of_mem k hx)) c hm'

theorem joinKeysChars_ne_nil (ks : List String) (hne : ks ≠ [])
    (h : ∀ k ∈ ks, keyNameOk k) : joinKeysChars ks ≠ [] := by
  cases ks with
  | nil => exact absurd rfl hne
  | cons k ks =>
    have hk : keyNameOk k := h k (List.mem_cons_self k ks)
    cases ks with
    | nil => exact hk.1
    | cons k' ks' =>
      have hj : joinKeysChars (k :: k' :: ks')
          = k.data ++ '+' :: joinKeysChars (k' :: ks') := rfl
      rw [hj]
      intro hcon
      exact hk.1 (List.append_eq_nil.1 hcon).1

theorem csvLineChars_flat (r : ActivityRecord) :
    csvLineChars r
      = natStrChars r.timestamp ++ [','] ++ intStrChars r.mouse_x ++ [',']
          ++ intStrChars r.mouse_y ++ [','] ++ ['"']
          ++ joinKeysChars r.keys_pressed ++ ['"'] := by
  rw [csvLineChars]
  simp [List.append_assoc, List.singleton_append, List.cons_append]

theorem newline_not_mem_csvLineChars (r : ActivityRecord) (h : recordOk r) :
    '\n' ∉ csvLineChars r := by
  intro hmem
  rw [csvLineChars_flat] at hmem
  rcases List.mem_append.1 hmem with hm | hq
  swap
  · exact absurd (List.mem_singleton.1 hq) (by decide)
  rcases List.mem_append.1 hm with hm | hJ
  swap
  · exact (mem_joinKeysChars _ h _ hJ).2.2 rfl
  rcases List.mem_append.1 hm with hm | hq
  swap
  · exact absurd (List.mem_singleton.1 hq) (by decide)
  rcases List.mem_append.1 hm with hm | hq
  swap
  · exact absurd (List.mem_singleton.1 hq) (by decide)
  rcases List.mem_append.1 hm with hm | hC
  swap
  · exact (mem_intStrChars_ne _ _ hC).2.1 rfl
  rcases List.mem_append.1 hm with hm | hq
  swap
  · exact absurd (List.mem_singleton.1 hq) (by decide)
  rcases List.mem_append.1 hm with hm | hB
  swap
  · exact (mem_intStrChars_ne _ _ hB).2.1 rfl
  rcases List.mem_append.1 hm with hA | hq
  · exact (isDigit_ne _ (mem_natStrChars_isDigit _ _ hA)).2.1 rfl
  · exact absurd (List.mem_singleton.1 hq) (by decide)

theorem splitCh_writeCsv (data : List ActivityRecord)
    (h : ∀ r ∈ data, recordOk r) :
    splitCh '\n' (writeCsvChars data)
      = csvHeader.data :: data.map csvLineChars ++ [[]] := by
  have hno : ∀ l ∈ csvHeader.data :: data.map csvLineChars, '\n' ∉ l := by
    intro l hl
    rcases List.mem_cons.1 hl with rfl | hl'
    · decide
    · obtain ⟨r, hr, rfl⟩ := List.mem_map.1 hl'
      exact newline_not_mem_csvLineChars r (h r hr)
  rw [writeCsvChars_eq,
    splitCh_join '\n' (csvHeader.data :: data.map csvLineChars) hno,
    List.cons_append]

theorem rowStr_eq (r : ActivityRecord) :
    natStr r.timestamp ++ "," ++ intStr r.mouse_x ++ "," ++ intStr r.mouse_y
        ++ ",\"" ++ joinKeys r.keys_pressed ++ "\""
      = String.mk (csvLineChars r) := by
  have hmk : ∀ l : List Char, (String.mk l).data = l := fun _ => rfl
  apply String.ext
  simp only [natStr, intStr, joinKeys, String.data_append, hmk, csvLineChars_flat]
  simp [List.append_assoc, List.singleton_append, List.cons_append]

/-- C4: for every non-empty log, the produced CSV file consists of the
header line `timestamp,mouse_x,mouse_y,keys_pressed` followed by exactly
one data row per record in log order; each row is the record's timestamp,
mouse x and mouse y separated by commas and a final double-quoted keys
field in which the key names are joined by plus signs (the final empty
string is the empty line after the file's trailing newline).  The
hypothesis on the records holds for every log the program can build,
since key names are `Keycode` debug names. -/
theorem c4_csv_format (data : List ActivityRecord) (hne : data ≠ [])
    (hok : ∀ r ∈ data, recordOk r) :
    fileLines (writeCsv data)
      = csvHeader
          :: data.map (fun r =>
              natStr r.timestamp ++ "," ++ intStr r.mouse_x ++ "," ++ intStr r.mouse_y
                ++ ",\"" ++ joinKeys r.keys_pressed ++ "\"")
          ++ [""] := by
  have hmk : ∀ l : List Char, (String.mk l).data = l := fun _ => rfl
  rw [fileLines, writeCsv, hmk, splitCh_writeCsv data hok]
  simp only [List.map_cons, List.map_append, List.map_map]
  rw [mk_data]
  congr 2
  exact congrArg (fun f => List.map f data) (funext fun r => (rowStr_eq r).symm)

/-- Witness for `c4_csv_format` at a concrete two-key, negative-coordinate
log. -/
theorem c4_csv_format_witness :
    ([⟨59, 10, -3, ["A", "LShift"]⟩] : List ActivityRecord) ≠ [] ∧
      (∀ r ∈ ([⟨59, 10, -3, ["A", "LShift"]⟩] : List ActivityRecord), recordOk r) ∧
      fileLines (writeCsv [⟨59, 10, -3, ["A", "LShift"]⟩])
        = csvHeader
            :: ([⟨59, 10, -3, ["A", "LShift"]⟩] : List ActivityRecord).map (fun r =>
                natStr r.timestamp ++ "," ++ intStr r.mouse_x ++ "," ++ intStr r.mouse_y
                  ++ ",\"" ++ joinKeys r.keys_pressed ++ "\"")
            ++ [""] :=
  ⟨by decide, by decide, c4_csv_format _ (by decide) (by decide)⟩

theorem csvLineChars_assoc (r : ActivityRecord) :
    csvLineChars r
      = natStrChars r.timestamp
          ++ ',' :: (intStrChars r.mouse_x
          ++ ',' :: (intStrChars r.mouse_y
          ++ ',' :: ('"' :: joinKeysChars r.keys_pressed ++ ['"']))) := by
  rw [csvLineChars_flat]
  simp [List.append_assoc]

theorem comma_not_mem_natStrChars (n : Nat) : ',' ∉ natStrChars n :=
  fun hm => (isDigit_ne _ (mem_natStrChars_isDigit _ _ hm)).1 rfl

theorem comma_not_mem_intStrChars (i : Int) : ',' ∉ intStrChars i :=
  fun hm => (mem_intStrChars_ne _ _ hm).1 rfl

theorem comma_not_mem_quoted (ks : List String) (h : ∀ k ∈ ks, keyNameOk k) :
    ',' ∉ '"' :: joinKeysChars ks ++ ['"'] := by
  intro hm
  rcases List.mem_cons.1 hm with hx | hx
  · exact absurd hx (by decide)
  · rcases List.mem_append.1 hx with hm' | hm'
    · exact (mem_joinKeysChars _ h _ hm').2.1 rfl
    · exact absurd (List.mem_singleton.1 hm') (by decide)

theorem splitCh_comma_csvLine (r : ActivityRecord) (h : recordOk r) :
    splitCh ',' (csvLineChars r)
      = [natStrChars r.timestamp, intStrChars r.mouse_x, intStrChars r.mouse_y,
          '"' :: joinKeysChars r.keys_pressed ++ ['"']] := by
  rw [csvLineChars_assoc,
    splitCh_append_cons ',' _ _ (comma_not_mem_natStrChars r.timestamp),
    splitCh_append_cons ',' _ _ (comma_not_mem_intStrChars r.mouse_x),
    splitCh_append_cons ',' _ _ (comma_not_mem_intStrChars r.mouse_y),
    splitCh_of_not_mem ',' _ (comma_not_mem_quoted r.keys_pressed h)]

theorem splitCh_plus_joinKeys (ks : List String) (h : ∀ k ∈ ks, keyNameOk k)
    (hne : ks ≠ []) :
    splitCh '+' (joinKeysChars ks) = ks.map String.data := by
  induction ks with
  | nil => exact absurd rfl hne
  | cons k ks ih =>
    have hk : keyNameOk k := h k (List.mem_cons_self k ks)
    have hplus : '+' ∉ k.data := fun hm => (hk.2 '+' hm).1 rfl
    cases ks with
    | nil =>
      have hj : joinKeysChars [k] = k.data := rfl
      rw [hj, splitCh_of_not_mem '+' _ hplus]
      rfl
    | cons k' ks' =>
      have hj : joinKeysChars (k :: k' :: ks')
          = k.data ++ '+' :: joinKeysChars (k' :: ks') := rfl
      rw [hj, splitCh_append_cons '+' _ _ hplus,
        ih (fun x hx => h x (List.mem_cons_of_mem k hx)) (by simp)]
      rfl

theorem readKeys_round (ks : List String) (h : ∀ k ∈ ks, keyNameOk k) :
    readKeys ('"' :: joinKeysChars ks ++ ['"']) = some ks := by
  cases ks with
  | nil => decide
  | cons k ks' =>
    have hall : ∀ x ∈ k :: ks', keyNameOk x := h
    have hne : joinKeysChars (k :: ks') ≠ [] :=
      joinKeysChars_ne_nil _ (by simp) hall
    have hemp : (joinKeysChars (k :: ks')).isEmpty = false := by
      cases hj : joinKeysChars (k :: ks') with
      | nil => exact absurd hj hne
      | cons a l => rfl
    show (if ('"' : Char) = '"' then
        if (joinKeysChars (k :: ks') ++ ['"']).getLast? = some '"' then
          if (joinKeysChars (k :: ks') ++ ['"']).dropLast.isEmpty = true then some []
          else some ((splitCh '+' ((joinKeysChars (k :: ks') ++ ['"']).dropLast)).map String.mk)
        else none
      else none) = some (k :: ks')
    rw [List.getLast?_concat, List.dropLast_concat, hemp]
    rw [if_pos rfl, if_pos rfl]
    simp only [Bool.false_eq_true, if_false]
    rw [splitCh_plus_joinKeys _ hall (by simp), List.map_map]
    have hid : String.mk ∘ String.data = id := funext mk_data
    rw [hid, List.map_id]

theorem parseRow_csvLine (r : ActivityRecord) (h : recordOk r) :
    parseRow (csvLineChars r) = some r := by
  simp only [parseRow, splitCh_comma_csvLine r h, readNat_natStrChars,
    readInt_intStrChars, readKeys_round r.keys_pressed h]

theorem parseRows_map (data : List ActivityRecord)
    (h : ∀ r ∈ data, recordOk r) :
    parseRows (data.map csvLineChars) = some data := by
  induction data with
  | nil => rfl
  | cons r rs ih =>
    have hr : recordOk r := h r (List.mem_cons_self r rs)
    have hrs : ∀ x ∈ rs, recordOk x := fun x hx => h x (List.mem_cons_of_mem r hx)
    simp only [List.map_cons, parseRows, parseRow_csvLine r hr, ih hrs]

/-- C5: serialisation followed by parsing is the identity on the log: for
every log of records, parsing the CSV text produced by the writer yields
records whose fields equal the original records' fields, in the same row
order.  The `recordOk` hypothesis holds for every log the program can
build, since key names are `Keycode` debug names. -/
theorem c5_csv_round_trip (data : List ActivityRecord)
    (hok : ∀ r ∈ data, recordOk r) :
    parseCsv (writeCsv data) = some data := by
  have hmk : ∀ l : List Char, (String.mk l).data = l := fun _ => rfl
  simp only [parseCsv, writeCsv, hmk, splitCh_writeCsv data hok]
  split
  case _ h1 => exact absurd h1 (by simp)
  case _ f fs heq =>
    injection heq with hf hfs
    subst hf
    subst hfs
    simp only [List.append_eq]
    rw [if_pos trivial, if_pos (by rw [List.getLast?_concat]), List.dropLast_concat]
    exact parseRows_map data hok

/-- Witness for `c5_csv_round_trip` at a concrete two-record log. -/
theorem c5_csv_round_trip_witness :
    (∀ r ∈ ([⟨59, 10, -3, ["A", "LShift"]⟩, ⟨60, 0, 0, []⟩] : List ActivityRecord),
        recordOk r) ∧
      parseCsv (writeCsv [⟨59, 10, -3, ["A", "LShift"]⟩, ⟨60, 0, 0, []⟩])
        = some [⟨59, 10, -3, ["A", "LShift"]⟩, ⟨60, 0, 0, []⟩] :=
  ⟨by decide, c5_csv_round_trip _ (by decide)⟩

theorem samplerRun_eq_range (env : SamplerEnv) (n : Nat) :
    samplerRun env n = (List.range n).map (sampleRecord env) := by
  induction n with
  | zero => rfl
  | succ n ih =>
    rw [samplerRun, ih, List.range_succ, List.map_append]
    rfl

/-- C7: within a session, every record appended by the sampler has a
timestamp greater than or equal to the timestamp of the previously
appended record, i.e. the log is in non-decreasing timestamp order after
any number of loop iterations.  The hypothesis states that successive
wall-clock reads are non-decreasing, which models physical time. -/
theorem c7_sampler_timestamps_monotone (env : SamplerEnv) (n : Nat)
    (hclock : ∀ i j : Nat, i ≤ j → env.clock i ≤ env.clock j) :
    List.Chain' (· ≤ ·) ((samplerRun env n).map (fun r => r.timestamp)) := by
  rw [samplerRun_eq_range, List.map_map]
  have hco : (fun r : ActivityRecord => r.timestamp) ∘ sampleRecord env = env.clock := rfl
  rw [hco]
  have hp : List.Pairwise (fun i j => env.clock i ≤ env.clock j) (List.range n) :=
    (List.pairwise_lt_range n).imp (fun hab => hclock _ _ (Nat.le_of_lt hab))
  exact (hp.map env.clock (fun a b hab => hab)).chain'

/-- Witness for `c7_sampler_timestamps_monotone` with the identity clock
and three iterations. -/
theorem c7_sampler_timestamps_monotone_witness :
    (∀ i j : Nat, i ≤ j →
        (⟨fun i => i, fun _ => (0, 0), fun _ => []⟩ : SamplerEnv).clock i
          ≤ (⟨fun i => i, fun _ => (0, 0), fun _ => []⟩ : SamplerEnv).clock j) ∧
      List.Chain' (· ≤ ·)
        ((samplerRun ⟨fun i => i, fun _ => (0, 0), fun _ => []⟩ 3).map
          (fun r => r.timestamp)) :=
  ⟨fun _ _ h => h,
    c7_sampler_timestamps_monotone ⟨fun i => i, fun _ => (0, 0), fun _ => []⟩ 3
      (fun _ _ h => h)⟩

theorem permissionStep_fields (s : ActivityTracker) :
    s.permissionStep.task_name = s.task_name ∧
      s.permissionStep.recording = s.recording ∧
      s.permissionStep.start_time = s.start_time ∧
      s.permissionStep.activity_data = s.activity_data ∧
      s.permissionStep.timer_complete = s.timer_complete := by
  unfold ActivityTracker.permissionStep
  split <;> exact ⟨rfl, rfl, rfl, rfl, rfl⟩

/-- C6: if the task name is the empty string, a `Create Task` click never
starts a session: the recording flag, start time, timer flag and activity
log are unchanged, no sampler thread is spawned, and no file is written. -/
theorem c6_empty_task_name_inert (s : ActivityTracker) (now : Nat)
    (dir : Option String) (ok : Bool) (hrec : s.recording = false)
    (hname : s.task_name = "") :
    (s.update .clickCreate now dir ok).spawned = false ∧
      (s.update .clickCreate now dir ok).state.recording = s.recording ∧
      (s.update .clickCreate now dir ok).state.start_time = s.start_time ∧
      (s.update .clickCreate now dir ok).state.timer_complete = s.timer_complete ∧
      (s.update .clickCreate now dir ok).state.activity_data = s.activity_data ∧
      (s.update .clickCreate now dir ok).file = none := by
  obtain ⟨h1, h2, h3, h4, h5⟩ := permissionStep_fields s
  have hrec0 : s.permissionStep.recording = false := by rw [h2, hrec]
  have hname0 : s.permissionStep.task_name.isEmpty = true := by
    rw [h1, hname]; rfl
  have hupd : s.update .clickCreate now dir ok = ⟨s.permissionStep, false, none⟩ := by
    simp only [ActivityTracker.update, ActivityTracker.handleCreateTask,
      ActivityTracker.timerStep, hrec0, hname0, Bool.false_eq_true, if_false,
      if_true, Bool.false_and]
  rw [hupd]
  exact ⟨rfl, h2, h3, h5, h4, rfl⟩

/-- Witness for `c6_empty_task_name_inert` at a concrete idle state with an
empty task name. -/
theorem c6_empty_task_name_inert_witness :
    ((⟨"", "x", false, none, [], false, true, false⟩ : ActivityTracker).update
          .clickCreate 3 none true).spawned = false ∧
      ((⟨"", "x", false, none, [], false, true, false⟩ : ActivityTracker).update
          .clickCreate 3 none true).state.recording
        = (⟨"", "x", false, none, [], false, true, false⟩ : ActivityTracker).recording ∧
      ((⟨"", "x", false, none, [], false, true, false⟩ : ActivityTracker).update
          .clickCreate 3 none true).state.start_time
        = (⟨"", "x", false, none, [], false, true, false⟩ : ActivityTracker).start_time ∧
      ((⟨"", "x", false, none, [], false, true, false⟩ : ActivityTracker).update
          .clickCreate 3 none true).state.timer_complete
        = (⟨"", "x", false, none, [], false, true, false⟩ : ActivityTracker).timer_complete ∧
      ((⟨"", "x", false, none, [], false, true, false⟩ : ActivityTracker).update
          .clickCreate 3 none true).state.activity_data
        = (⟨"", "x", false, none, [], false, true, false⟩ : ActivityTracker).activity_data ∧
      ((⟨"", "x", false, none, [], false, true, false⟩ : ActivityTracker).update
          .clickCreate 3 none true).file = none :=
  c6_empty_task_name_inert ⟨"", "x", false, none, [], false, true, false⟩ 3 none true
    rfl rfl

/-- C3: a stop request issued while the start time is less than five
seconds in the past leaves the handler's state unchanged apart from the
status text, which is set to the premature-stop message; the session stays
in the recording state and no file is produced (`main.rs` lines 100-110). -/
theorem c3_premature_stop (s : ActivityTracker) (now t0 : Nat)
    (dir : Option String) (ok : Bool) (hst : s.start_time = some t0)
    (hlt : now - t0 < 5) :
    s.handleEndTask now dir ok
      = ({ s with status := "Please wait for timer to complete." }, none) := by
  simp only [ActivityTracker.handleEndTask, hst]
  rw [if_neg (by omega)]

/-- Witness for `c3_premature_stop` two seconds into a session. -/
theorem c3_premature_stop_witness :
    (⟨"t", "old", true, some 0, [], false, true, false⟩ : ActivityTracker).handleEndTask
        2 none true
      = ({ (⟨"t", "old", true, some 0, [], false, true, false⟩ : ActivityTracker) with
            status := "Please wait for timer to complete." }, none) :=
  c3_premature_stop _ 2 0 none true rfl (by decide)

/-- C8: if the shared log is empty when the writer runs, it reports the
nothing-recorded status and creates no output file. -/
theorem c8_empty_log_nothing_recorded (s : ActivityTracker) (now : Nat)
    (dir : Option String) (ok : Bool) (h : s.activity_data = []) :
    s.save_activity_data now dir ok
      = ({ s with status := "No activity data recorded." }, none) := by
  simp only [ActivityTracker.save_activity_data, h, List.isEmpty_nil, if_true]

/-- Witness for `c8_empty_log_nothing_recorded` at a concrete state with an
empty log. -/
theorem c8_empty_log_nothing_recorded_witness :
    (⟨"t", "old", true, some 9, [], true, true, false⟩ : ActivityTracker).save_activity_data
        12 (some "/dl") true
      = ({ (⟨"t", "old", true, some 9, [], true, true, false⟩ : ActivityTracker) with
            status := "No activity data recorded." }, none) :=
  c8_empty_log_nothing_recorded _ 12 (some "/dl") true rfl

/-- C2 (amended): the writer reads the shared log without draining it:
after `save_activity_data` runs, the shared activity log still holds
exactly the records it held before (the loop `for record in data.iter()`
only reads; the log is replaced only when a new session starts). -/
theorem c2_save_preserves_log (s : ActivityTracker) (now : Nat)
    (dir : Option String) (ok : Bool) :
    (s.save_activity_data now dir ok).1.activity_data = s.activity_data := by
  unfold ActivityTracker.save_activity_data
  split
  · rfl
  · cases dir with
    | none => rfl
    | some d =>
      cases ok with
      | true => rfl
      | false => rfl

/-- C2 (counterexample to the claim as stated): at a state holding one
record, the shared log is not empty after `save_activity_data` runs, even
though the save succeeds. -/
theorem c2_log_not_drained_counterexample :
    ¬ ((ActivityTracker.save_activity_data
          ⟨"t", "Recording in progress...", true, some 0, [⟨5, 1, 2, ["A"]⟩],
            true, true, false⟩
          6 (some "/downloads") true).1.activity_data = []) := by
  decide

/-- C1 (evidence of the divergence): at a state where the downloads
directory fails to resolve, `save_activity_data` sets the status to the
directory error, but the `End Task` handler then unconditionally overwrites
the status with the generic completion message (`main.rs` line 105), so the
final frame status claims success although no file was written. -/
theorem c1_final_status_masks_save_errors :
    ((ActivityTracker.update
          ⟨"t", "Recording in progress...", true, some 0, [⟨5, 1, 2, ["A"]⟩],
            true, true, false⟩
          .clickEnd 6 none true).state.status
        = "Recording completed and saved to Downloads folder.") ∧
      (ActivityTracker.update
          ⟨"t", "Recording in progress...", true, some 0, [⟨5, 1, 2, ["A"]⟩],
            true, true, false⟩
          .clickEnd 6 none true).file = none := by
  decide

/-- C9: when a save succeeds, the output file's path is the downloads
directory joined with a filename equal to the task name with each space
replaced by an underscore, followed by an underscore, the decimal digits of
the epoch seconds at save time, and the suffix `.csv`. -/
theorem c9_filename_pattern (s : ActivityTracker) (now : Nat) (dir : String)
    (hne : s.activity_data ≠ []) (hnow : 0 < now) :
    ∃ contents, (s.save_activity_data now (some dir) true).2
      = some (dir ++ "/"
          ++ String.mk (s.task_name.data.map (fun c => if c = ' ' then '_' else c)
              ++ '_' :: ((Nat.digits 10 now).reverse.map Nat.digitChar ++ ".csv".data)),
          contents) := by
  have hemp : s.activity_data.isEmpty = false := by
    cases hd : s.activity_data with
    | nil => exact absurd hd hne
    | cons a l => rfl
  have hfile : saveFilename s.task_name now
      = String.mk (s.task_name.data.map (fun c => if c = ' ' then '_' else c)
          ++ '_' :: ((Nat.digits 10 now).reverse.map Nat.digitChar ++ ".csv".data)) := by
    have hmk : ∀ l : List Char, (String.mk l).data = l := fun _ => rfl
    apply String.ext
    simp only [saveFilename, sanitize, natStr, natStrChars, String.data_append, hmk]
    rw [natDigits_eq_digits now (by omega)]
    simp [List.append_assoc]
  refine ⟨writeCsv s.activity_data, ?_⟩
  simp only [ActivityTracker.save_activity_data, hemp, Bool.false_eq_true,
    if_false, if_true, hfile]

/-- Witness for `c9_filename_pattern` for the task name `my task` saved at
epoch second 7. -/
theorem c9_filename_pattern_witness :
    ∃ contents,
      ((⟨"my task", "old", true, some 0, [⟨5, 1, 2, ["A"]⟩], true, true,
          false⟩ : ActivityTracker).save_activity_data 7 (some "/dl") true).2
        = some ("/dl" ++ "/"
            ++ String.mk ("my task".data.map (fun c => if c = ' ' then '_' else c)
                ++ '_' :: ((Nat.digits 10 7).reverse.map Nat.digitChar ++ ".csv".data)),
            contents) :=
  c9_filename_pattern _ 7 "/dl" (by decide) (by decide)

/-- C10: filename sanitisation replaces only the space character: the
sanitised task name has the same length as the task name, and every
non-space character appears verbatim at its position. -/
theorem c10_sanitize_only_spaces (task : String) (i : Nat)
    (h : i < task.data.length) (hc : task.data.get ⟨i, h⟩ ≠ ' ') :
    (sanitize task).data.length = task.data.length ∧
      ∃ h2 : i < (sanitize task).data.length,
        (sanitize task).data.get ⟨i, h2⟩ = task.data.get ⟨i, h⟩ := by
  have hdata : (sanitize task).data
      = task.data.map (fun c => if c = ' ' then '_' else c) := rfl
  have hlen : (sanitize task).data.length = task.data.length := by
    rw [hdata, List.length_map]
  have h2 : i < (sanitize task).data.length := by rw [hlen]; exact h
  refine ⟨hlen, h2, ?_⟩
  simp only [List.get_eq_getElem] at hc ⊢
  simp only [hdata, List.getElem_map]
  rw [if_neg hc]

/-- Witness for `c10_sanitize_only_spaces`: the slash in `a/"b!` survives
sanitisation unchanged. -/
theorem c10_sanitize_only_spaces_witness :
    ("a/\"b!".data.get ⟨1, by decide⟩ ≠ ' ') ∧
      ((sanitize "a/\"b!").data.length = "a/\"b!".data.length ∧
        ∃ h2 : 1 < (sanitize "a/\"b!").data.length,
          (sanitize "a/\"b!").data.get ⟨1, h2⟩ = "a/\"b!".data.get ⟨1, by decide⟩) :=
  ⟨by decide, c10_sanitize_only_spaces "a/\"b!" 1 (by decide) (by decide)⟩
